import Mathlib

/-!
Shallow embedding of the `sentinel_vault` Solana/Anchor program
(`contracts-svm/programs/sentinel_vault/src/lib.rs`).

Modelling conventions:
* `Pubkey` is an opaque identity, embedded as `Nat` with decidable equality.
* `u64` counters are `Nat` with the overflow boundary `2^64` made explicit in
  `u64CheckedAdd` (mirroring Rust's `u64::checked_add`); all counters reachable
  from the program stay below `2^64` because they start at `0` and only grow
  through `u64CheckedAdd`.
* Program-derived addresses: the Vault account lives at seeds
  `["vault", owner]`, a pure function of the owner's key, embedded as the owner
  `Pubkey` itself; an Order account lives at seeds
  `["order", vault_key, order_id]`, embedded as the pair `(vault_key, order_id)`.
* Anchor account validation (existence, `init` collision, `seeds` consistency,
  `has_one` ownership) runs before the handler body and is embedded in `stepOp`;
  a constraint violation aborts the transaction with a distinct `TxError`.
* The Solana runtime commits account mutations only when the whole transaction
  succeeds; a failing transaction (error or panic) leaves storage unchanged.
  `stepOp` returns `Except TxError Chain` and `applyOp` keeps the old chain on
  error, which is exactly that observable semantics.
-/

/-- An account address / signer identity, opaque with decidable equality. -/
abbrev Pubkey := Nat

/-- Rust `u64::checked_add`: `some` of the sum when it fits in 64 bits, `none`
on overflow (for operands already below `2^64`). -/
def u64CheckedAdd (a b : Nat) : Option Nat :=
  if a + b < 2 ^ 64 then some (a + b) else none

/-- `OrderType` enum from the source. -/
inductive OrderType where
  | StopLoss
  | TakeProfit
  | TrailingStop
deriving DecidableEq, Repr

/-- `OrderStatus` enum from the source. -/
inductive OrderStatus where
  | Active
  | Executed
  | Cancelled
  | Expired
deriving DecidableEq, Repr

/-- `SentinelError` error codes declared by the program (`#[error_code]`). -/
inductive SentinelError where
  | OrderNotActive
  | TriggerNotMet
  | Unauthorized
  | InvalidPrice
  | Overflow
deriving DecidableEq, Repr

/-- How a transaction against the program can fail.  `program e` is a handler
`require!(_, e)` failure; the other constructors are failures raised by the
Anchor account-validation layer or the Rust runtime, outside the handler:
 * `accountNotFound`: a non-`init` account at the derived address does not
   exist or cannot be deserialized;
 * `AlreadyExists`: `init` targets an occupied derived address, so the system
   program refuses to create the account (account already in use);
 * `seedsMismatch`: the supplied account is not at the address derived from
   the declared seeds;
 * `hasOneViolation`: a `has_one = owner` constraint found the record's
   `owner` field differing from the supplied signer;
 * `Panicked`: the handler hit a Rust panic (here: `checked_add(1).unwrap()`
   on `None`), aborting the transaction. -/
inductive TxError where
  | program (e : SentinelError)
  | accountNotFound
  | AlreadyExists
  | seedsMismatch
  | hasOneViolation
  | Panicked
deriving DecidableEq, Repr

/-- `Vault` account: per-owner metadata with the monotonic order counter. -/
structure Vault where
  owner : Pubkey
  bump : Nat
  order_count : Nat
  created_at : Int
deriving DecidableEq, Repr

/-- `Order` account: one conditional order under a vault. -/
structure Order where
  vault : Pubkey
  owner : Pubkey
  order_id : Nat
  order_type : OrderType
  trigger_price : Nat
  amount : Nat
  token_mint : Pubkey
  status : OrderStatus
  created_at : Int
  executed_at : Option Int
  bump : Nat
deriving DecidableEq, Repr

/-- Handler body of `initialize_vault`: the fields written into the freshly
created Vault account (`order_count = 0`, `created_at = now`). -/
def initialize_vault (owner : Pubkey) (now : Int) (bump : Nat) : Vault :=
  { owner := owner, bump := bump, order_count := 0, created_at := now }

/-- Handler body of `create_order`: writes every Order field (`order_id` is the
vault's current `order_count`, status starts `Active`, `executed_at` keeps its
zero-initialized `None`), then advances the counter with
`checked_add(1).unwrap()` — the `none` branch is the `unwrap` panic, which
aborts the transaction. -/
def create_order (v : Vault) (vault_key caller : Pubkey) (ot : OrderType)
    (trigger_price amount : Nat) (token_mint : Pubkey) (now : Int)
    (bump : Nat) : Except TxError (Order × Vault) :=
  let o : Order :=
    { vault := vault_key, owner := caller, order_id := v.order_count,
      order_type := ot, trigger_price := trigger_price, amount := amount,
      token_mint := token_mint, status := OrderStatus.Active,
      created_at := now, executed_at := none, bump := bump }
  match u64CheckedAdd v.order_count 1 with
  | some c => Except.ok (o, { v with order_count := c })
  | none => Except.error TxError.Panicked

/-- Handler body of `execute_order`: requires `status == Active` (else
`OrderNotActive`), then marks the order `Executed` and records `executed_at`.
It takes no reference price and performs no trigger evaluation: the swap and
trigger logic is a TODO stub in the source. -/
def execute_order (now : Int) (o : Order) : Except SentinelError Order :=
  if o.status = OrderStatus.Active then
    Except.ok { o with status := OrderStatus.Executed, executed_at := some now }
  else
    Except.error SentinelError.OrderNotActive

/-- Handler body of `cancel_order`: requires `status == Active` (else
`OrderNotActive`), then marks the order `Cancelled`.  The ownership check is
not here: it is the `has_one = owner` constraint of the `CancelOrder`
accounts context, which runs before this body. -/
def cancel_order (o : Order) : Except SentinelError Order :=
  if o.status = OrderStatus.Active then
    Except.ok { o with status := OrderStatus.Cancelled }
  else
    Except.error SentinelError.OrderNotActive

/-- Modelled from the spec: the Trigger Evaluation Engine's `StopLoss` rule,
"satisfied iff `current_reference_price <= order.trigger_price`".  This
component is absent from the source (`execute_order` neither receives a
reference price nor checks any condition), so it is given here only to state
what the spec expects at a given price. -/
def stopLossSatisfied (trigger_price current_reference_price : Nat) : Bool :=
  current_reference_price ≤ trigger_price

/-- On-chain storage: both account kinds, addressed by their derived keys.
A Vault's address is determined by its owner; an Order's address by its
parent vault's address together with its `order_id`. -/
structure Chain where
  vaults : Pubkey → Option Vault
  orders : Pubkey × Nat → Option Order

/-- Storage with no accounts. -/
def emptyChain : Chain :=
  { vaults := fun _ => none, orders := fun _ => none }

/-- Write a Vault account at its derived address. -/
def setVault (s : Chain) (k : Pubkey) (v : Vault) : Chain :=
  { s with vaults := fun a => if a = k then some v else s.vaults a }

/-- Write an Order account at its derived address. -/
def setOrder (s : Chain) (l : Pubkey × Nat) (o : Order) : Chain :=
  { s with orders := fun a => if a = l then some o else s.orders a }

/-- The four instructions of the public surface, each with its caller
(signer) identity and the clock value the runtime would supply. -/
inductive Op where
  | initVault (owner : Pubkey) (now : Int) (bump : Nat)
  | create (caller : Pubkey) (ot : OrderType) (trigger_price amount : Nat)
      (token_mint : Pubkey) (now : Int) (bump : Nat)
  | execute (executor : Pubkey) (loc : Pubkey × Nat) (now : Int)
  | cancel (caller : Pubkey) (loc : Pubkey × Nat)

/-- One transaction against the program: Anchor account validation (in
declaration order) followed by the handler body.
 * `initVault`: `init` at the owner-derived address fails `AlreadyExists` when
   occupied, else the handler writes the fresh Vault.
 * `create`: the Vault account is located by the signer's own key (its seeds
   are `["vault", owner.key()]` with `owner` the signer), must exist, and must
   satisfy `has_one = owner`; the Order account is `init` at
   `["order", vault_key, vault.order_count]` and must be unoccupied; then the
   handler writes the order and advances the counter (panicking on overflow).
 * `execute`: the Order account must exist and sit at the address derived from
   its own `vault` and `order_id` fields; any signer may execute; the handler
   requires `Active`.
 * `cancel`: as `execute`, plus `has_one = owner` against the caller, checked
   before the handler's `Active` requirement. -/
def stepOp (op : Op) (s : Chain) : Except TxError Chain :=
  match op with
  | Op.initVault owner now bump =>
    match s.vaults owner with
    | some _ => Except.error TxError.AlreadyExists
    | none => Except.ok (setVault s owner (initialize_vault owner now bump))
  | Op.create caller ot trigger_price amount token_mint now bump =>
    match s.vaults caller with
    | none => Except.error TxError.accountNotFound
    | some v =>
      if v.owner = caller then
        match s.orders (caller, v.order_count) with
        | some _ => Except.error TxError.AlreadyExists
        | none =>
          match create_order v caller caller ot trigger_price amount token_mint now bump with
          | Except.ok (o, v2) =>
            Except.ok (setVault (setOrder s (caller, v.order_count) o) caller v2)
          | Except.error e => Except.error e
      else Except.error TxError.hasOneViolation
  | Op.execute _executor loc now =>
    match s.orders loc with
    | none => Except.error TxError.accountNotFound
    | some o =>
      if (o.vault, o.order_id) = loc then
        match execute_order now o with
        | Except.ok o2 => Except.ok (setOrder s loc o2)
        | Except.error e => Except.error (TxError.program e)
      else Except.error TxError.seedsMismatch
  | Op.cancel caller loc =>
    match s.orders loc with
    | none => Except.error TxError.accountNotFound
    | some o =>
      if (o.vault, o.order_id) = loc then
        if o.owner = caller then
          match cancel_order o with
          | Except.ok o2 => Except.ok (setOrder s loc o2)
          | Except.error e => Except.error (TxError.program e)
        else Except.error TxError.hasOneViolation
      else Except.error TxError.seedsMismatch

/-- Observable effect of submitting one transaction: the new storage when it
succeeds, the old storage unchanged when it fails (runtime rollback). -/
def applyOp (op : Op) (s : Chain) : Chain :=
  match stepOp op s with
  | Except.ok s2 => s2
  | Except.error _ => s

/-- Observable effect of a serialized sequence of transactions. -/
def runOps : List Op → Chain → Chain
  | [], s => s
  | op :: ops, s => runOps ops (applyOp op s)

/-- `n` serial `create_order` calls with the same arguments, stopping at the
first failure. -/
def createN (caller : Pubkey) (ot : OrderType) (trigger_price amount : Nat)
    (token_mint : Pubkey) (now : Int) (bump : Nat) :
    Nat → Chain → Except TxError Chain
  | 0, s => Except.ok s
  | n + 1, s =>
    match stepOp (Op.create caller ot trigger_price amount token_mint now bump) s with
    | Except.ok s2 => createN caller ot trigger_price amount token_mint now bump n s2
    | Except.error e => Except.error e

/-- A concrete Active StopLoss order with `trigger_price = 100`. -/
def sampleStopLoss : Order :=
  { vault := 1, owner := 1, order_id := 0, order_type := OrderType.StopLoss,
    trigger_price := 100, amount := 5, token_mint := 2,
    status := OrderStatus.Active, created_at := 0, executed_at := none,
    bump := 255 }

/-- A chain holding one vault, owned by pubkey 1, with `order_count = 0`. -/
def chainV0 : Chain := setVault emptyChain 1 (initialize_vault 1 0 255)

/-- A chain holding one vault whose `order_count` is the largest `u64`. -/
def chainVMax : Chain :=
  setVault emptyChain 1
    { owner := 1, bump := 255, order_count := 2 ^ 64 - 1, created_at := 0 }

/-- C1: the claim fails on the code.  For the Active StopLoss order with
`trigger_price = 100`, the spec's trigger rule is not satisfied at reference
price 110, yet `execute_order` — which receives no reference price at all and
evaluates no trigger (the swap logic is a TODO stub) — succeeds and marks the
order `Executed` with `executed_at` recorded.  `TriggerNotMet` is declared by
the program but never raised. -/
theorem execute_order_ignores_stop_loss_trigger :
    stopLossSatisfied sampleStopLoss.trigger_price 110 = false ∧
    execute_order 7 sampleStopLoss =
      Except.ok { sampleStopLoss with
                    status := OrderStatus.Executed,
                    executed_at := some 7 } := by
  exact ⟨rfl, rfl⟩

/-- C2: the claim fails on the code.  `create_order` never inspects
`trigger_price` (`InvalidPrice` is declared but never raised): a call with
`trigger_price = 0` by the vault owner succeeds, an Active Order record with
`trigger_price = 0` is written at the derived location `(vault, 0)`, and the
vault's `order_count` advances to 1. -/
theorem create_order_accepts_zero_trigger_price :
    ∃ s2, stepOp (Op.create 1 OrderType.StopLoss 0 5 2 3 254) chainV0 =
        Except.ok s2 ∧
      s2.orders (1, 0) =
        some { vault := 1, owner := 1, order_id := 0,
               order_type := OrderType.StopLoss, trigger_price := 0,
               amount := 5, token_mint := 2, status := OrderStatus.Active,
               created_at := 3, executed_at := none, bump := 254 } ∧
      s2.vaults 1 =
        some { owner := 1, bump := 255, order_count := 1, created_at := 0 } := by
  exact ⟨_, rfl, rfl, rfl⟩

/-- C3 counterexample: with the order counter at `2^64 - 1`, `create_order`
fails — but via the `unwrap` panic aborting the transaction, not via the
program's declared `Overflow` error code, which is never raised. -/
theorem create_order_overflow_panics_not_overflow_error :
    stepOp (Op.create 1 OrderType.StopLoss 100 5 2 3 254) chainVMax =
      Except.error TxError.Panicked ∧
    TxError.Panicked ≠ TxError.program SentinelError.Overflow := by
  exact ⟨rfl, by decide⟩

@[simp]
lemma setVault_vaults (s : Chain) (k : Pubkey) (v : Vault) (a : Pubkey) :
    (setVault s k v).vaults a = if a = k then some v else s.vaults a := rfl

@[simp]
lemma setVault_orders (s : Chain) (k : Pubkey) (v : Vault) (l : Pubkey × Nat) :
    (setVault s k v).orders l = s.orders l := rfl

@[simp]
lemma setOrder_orders (s : Chain) (l : Pubkey × Nat) (o : Order) (a : Pubkey × Nat) :
    (setOrder s l o).orders a = if a = l then some o else s.orders a := rfl

@[simp]
lemma setOrder_vaults (s : Chain) (l : Pubkey × Nat) (o : Order) (k : Pubkey) :
    (setOrder s l o).vaults k = s.vaults k := rfl

lemma u64CheckedAdd_some (a b : Nat) (h : a + b < 2 ^ 64) :
    u64CheckedAdd a b = some (a + b) := by
  simp only [u64CheckedAdd, if_pos h]

lemma u64CheckedAdd_none (a b : Nat) (h : ¬ a + b < 2 ^ 64) :
    u64CheckedAdd a b = none := by
  simp only [u64CheckedAdd, if_neg h]

/-- A successful transaction never lowers any vault's order counter, and it
never deletes a vault. -/
lemma vault_count_mono (op : Op) (s1 s2 : Chain) (h : stepOp op s1 = Except.ok s2)
    (k : Pubkey) (w : Vault) (hw : s1.vaults k = some w) :
    ∃ w2, s2.vaults k = some w2 ∧ w.order_count ≤ w2.order_count := by
  cases op with
  | initVault owner now bump =>
    cases hv : s1.vaults owner with
    | some v => simp [stepOp, hv] at h
    | none =>
      simp only [stepOp, hv, Except.ok.injEq] at h
      subst h
      have hk : k ≠ owner := fun hko => by rw [hko, hv] at hw; cases hw
      exact ⟨w, by simp [hk, hw], le_refl _⟩
  | create caller ot tp amt tok now bump =>
    cases hv : s1.vaults caller with
    | none => simp [stepOp, hv] at h
    | some v =>
      by_cases hone : v.owner = caller
      · cases hfree : s1.orders (caller, v.order_count) with
        | some o => simp [stepOp, hv, hone, hfree] at h
        | none =>
          by_cases hlt : v.order_count + 1 < 2 ^ 64
          · simp only [stepOp, hv, if_pos hone, hfree, create_order,
              u64CheckedAdd_some _ _ hlt, Except.ok.injEq] at h
            subst h
            by_cases hk : k = caller
            · subst hk
              rw [hw] at hv
              injection hv with hv
              subst hv
              exact ⟨{ w with order_count := w.order_count + 1 }, by simp,
                Nat.le_succ _⟩
            · exact ⟨w, by simp [hk, hw], le_refl _⟩
          · simp only [stepOp, hv, if_pos hone, hfree, create_order,
              u64CheckedAdd_none _ _ hlt] at h
            cases h
      · simp [stepOp, hv, hone] at h
  | execute ex loc now =>
    cases ho : s1.orders loc with
    | none => simp [stepOp, ho] at h
    | some o =>
      by_cases hseeds : (o.vault, o.order_id) = loc
      · by_cases hact : o.status = OrderStatus.Active
        · simp only [stepOp, ho, if_pos hseeds, execute_order, if_pos hact,
            Except.ok.injEq] at h
          subst h
          exact ⟨w, by simp [hw], le_refl _⟩
        · simp only [stepOp, ho, if_pos hseeds, execute_order, if_neg hact] at h
          cases h
      · simp [stepOp, ho, hseeds] at h
  | cancel caller loc =>
    cases ho : s1.orders loc with
    | none => simp [stepOp, ho] at h
    | some o =>
      by_cases hseeds : (o.vault, o.order_id) = loc
      · by_cases hone : o.owner = caller
        · by_cases hact : o.status = OrderStatus.Active
          · simp only [stepOp, ho, if_pos hseeds, if_pos hone, cancel_order,
              if_pos hact, Except.ok.injEq] at h
            subst h
            exact ⟨w, by simp [hw], le_refl _⟩
          · simp only [stepOp, ho, if_pos hseeds, if_pos hone, cancel_order,
              if_neg hact] at h
            cases h
        · simp [stepOp, ho, hseeds, hone] at h
      · simp [stepOp, ho, hseeds] at h

/-- An order in a terminal (non-`Active`) status is never touched again: any
single transaction leaves it exactly as it is. -/
lemma terminal_persists_step (op : Op) (s : Chain) (loc : Pubkey × Nat) (o : Order)
    (ho : s.orders loc = some o) (hterm : o.status ≠ OrderStatus.Active) :
    (applyOp op s).orders loc = some o := by
  cases op with
  | initVault owner now bump =>
    cases hv : s.vaults owner with
    | some v => simp [applyOp, stepOp, hv, ho]
    | none => simp [applyOp, stepOp, hv, ho]
  | create caller ot tp amt tok now bump =>
    cases hv : s.vaults caller with
    | none => simp [applyOp, stepOp, hv, ho]
    | some v =>
      by_cases hone : v.owner = caller
      · cases hfree : s.orders (caller, v.order_count) with
        | some o2 => simp [applyOp, stepOp, hv, hone, hfree, ho]
        | none =>
          have hne : loc ≠ (caller, v.order_count) := by
            intro hl
            rw [hl, hfree] at ho
            cases ho
          by_cases hlt : v.order_count + 1 < 2 ^ 64
          · simp only [applyOp, stepOp, hv, if_pos hone, hfree, create_order,
              u64CheckedAdd_some _ _ hlt]
            simp [hne, ho]
          · simp only [applyOp, stepOp, hv, if_pos hone, hfree, create_order,
              u64CheckedAdd_none _ _ hlt]
            exact ho
      · simp [applyOp, stepOp, hv, hone, ho]
  | execute ex loc2 now =>
    cases ho2 : s.orders loc2 with
    | none => simp [applyOp, stepOp, ho2, ho]
    | some o2 =>
      by_cases hseeds : (o2.vault, o2.order_id) = loc2
      · by_cases hact : o2.status = OrderStatus.Active
        · have hne : loc ≠ loc2 := by
            intro hl
            rw [hl, ho2] at ho
            injection ho with ho
            subst ho
            exact hterm hact
          simp only [applyOp, stepOp, ho2, if_pos hseeds, execute_order,
            if_pos hact]
          simp [hne, ho]
        · simp only [applyOp, stepOp, ho2, if_pos hseeds, execute_order,
            if_neg hact]
          exact ho
      · simp [applyOp, stepOp, ho2, hseeds, ho]
  | cancel caller loc2 =>
    cases ho2 : s.orders loc2 with
    | none => simp [applyOp, stepOp, ho2, ho]
    | some o2 =>
      by_cases hseeds : (o2.vault, o2.order_id) = loc2
      · by_cases hone : o2.owner = caller
        · by_cases hact : o2.status = OrderStatus.Active
          · have hne : loc ≠ loc2 := by
              intro hl
              rw [hl, ho2] at ho
              injection ho with ho
              subst ho
              exact hterm hact
            simp only [applyOp, stepOp, ho2, if_pos hseeds, if_pos hone,
              cancel_order, if_pos hact]
            simp [hne, ho]
          · simp only [applyOp, stepOp, ho2, if_pos hseeds, if_pos hone,
              cancel_order, if_neg hact]
            exact ho
        · simp [applyOp, stepOp, ho2, hseeds, hone, ho]
      · simp [applyOp, stepOp, ho2, hseeds, ho]

/-- An order in a terminal (non-`Active`) status persists unchanged through
any sequence of transactions. -/
lemma terminal_persists_run (ops : List Op) (s : Chain) (loc : Pubkey × Nat)
    (o : Order) (ho : s.orders loc = some o)
    (hterm : o.status ≠ OrderStatus.Active) :
    (runOps ops s).orders loc = some o := by
  induction ops generalizing s with
  | nil => exact ho
  | cons op ops ih => exact ih _ (terminal_persists_step op s loc o ho hterm)

/-- No instruction ever writes the `Expired` status: one transaction preserves
"no stored order is Expired". -/
lemma no_expired_step (op : Op) (s : Chain)
    (hinv : ∀ l o, s.orders l = some o → o.status ≠ OrderStatus.Expired) :
    ∀ l o, (applyOp op s).orders l = some o → o.status ≠ OrderStatus.Expired := by
  intro l o hlo
  cases op with
  | initVault owner now bump =>
    cases hv : s.vaults owner with
    | some v =>
      simp [applyOp, stepOp, hv] at hlo
      exact hinv l o hlo
    | none =>
      simp [applyOp, stepOp, hv] at hlo
      exact hinv l o hlo
  | create caller ot tp amt tok now bump =>
    cases hv : s.vaults caller with
    | none =>
      simp [applyOp, stepOp, hv] at hlo
      exact hinv l o hlo
    | some v =>
      by_cases hone : v.owner = caller
      · cases hfree : s.orders (caller, v.order_count) with
        | some o2 =>
          simp [applyOp, stepOp, hv, hone, hfree] at hlo
          exact hinv l o hlo
        | none =>
          by_cases hlt : v.order_count + 1 < 2 ^ 64
          · simp only [applyOp, stepOp, hv, if_pos hone, hfree, create_order,
              u64CheckedAdd_some _ _ hlt] at hlo
            by_cases hl : l = (caller, v.order_count)
            · simp only [setOrder_orders, setVault_orders, if_pos hl] at hlo
              injection hlo with hlo
              subst hlo
              simp
            · simp only [setOrder_orders, setVault_orders, if_neg hl] at hlo
              exact hinv l o hlo
          · simp only [applyOp, stepOp, hv, if_pos hone, hfree, create_order,
              u64CheckedAdd_none _ _ hlt] at hlo
            exact hinv l o hlo
      · simp [applyOp, stepOp, hv, hone] at hlo
        exact hinv l o hlo
  | execute ex loc2 now =>
    cases ho2 : s.orders loc2 with
    | none =>
      simp [applyOp, stepOp, ho2] at hlo
      exact hinv l o hlo
    | some o2 =>
      by_cases hseeds : (o2.vault, o2.order_id) = loc2
      · by_cases hact : o2.status = OrderStatus.Active
        · simp only [applyOp, stepOp, ho2, if_pos hseeds, execute_order,
            if_pos hact] at hlo
          by_cases hl : l = loc2
          · simp only [setOrder_orders, if_pos hl] at hlo
            injection hlo with hlo
            subst hlo
            simp
          · simp only [setOrder_orders, if_neg hl] at hlo
            exact hinv l o hlo
        · simp only [applyOp, stepOp, ho2, if_pos hseeds, execute_order,
            if_neg hact] at hlo
          exact hinv l o hlo
      · simp [applyOp, stepOp, ho2, hseeds] at hlo
        exact hinv l o hlo
  | cancel caller loc2 =>
    cases ho2 : s.orders loc2 with
    | none =>
      simp [applyOp, stepOp, ho2] at hlo
      exact hinv l o hlo
    | some o2 =>
      by_cases hseeds : (o2.vault, o2.order_id) = loc2
      · by_cases hone : o2.owner = caller
        · by_cases hact : o2.status = OrderStatus.Active
          · simp only [applyOp, stepOp, ho2, if_pos hseeds, if_pos hone,
              cancel_order, if_pos hact] at hlo
            by_cases hl : l = loc2
            · simp only [setOrder_orders, if_pos hl] at hlo
              injection hlo with hlo
              subst hlo
              simp
            · simp only [setOrder_orders, if_neg hl] at hlo
              exact hinv l o hlo
          · simp only [applyOp, stepOp, ho2, if_pos hseeds, if_pos hone,
              cancel_order, if_neg hact] at hlo
            exact hinv l o hlo
        · simp [applyOp, stepOp, ho2, hseeds, hone] at hlo
          exact hinv l o hlo
      · simp [applyOp, stepOp, ho2, hseeds] at hlo
        exact hinv l o hlo

/-- No stored order is ever Expired, through any sequence of transactions. -/
lemma no_expired_run (ops : List Op) (s : Chain)
    (hinv : ∀ l o, s.orders l = some o → o.status ≠ OrderStatus.Expired) :
    ∀ l o, (runOps ops s).orders l = some o → o.status ≠ OrderStatus.Expired := by
  induction ops generalizing s with
  | nil => exact hinv
  | cons op ops ih => exact ih _ (no_expired_step op s hinv)

/-- Every stored vault sits at the address derived from its own owner: one
transaction preserves this. -/
lemma vault_owner_step (op : Op) (s : Chain)
    (hinv : ∀ k v, s.vaults k = some v → v.owner = k) :
    ∀ k v, (applyOp op s).vaults k = some v → v.owner = k := by
  intro k v hkv
  cases op with
  | initVault owner now bump =>
    cases hv : s.vaults owner with
    | some w =>
      simp [applyOp, stepOp, hv] at hkv
      exact hinv k v hkv
    | none =>
      simp only [applyOp, stepOp, hv, setVault_vaults] at hkv
      by_cases hk : k = owner
      · simp only [if_pos hk] at hkv
        injection hkv with hkv
        subst hkv
        simp [initialize_vault, hk]
      · simp only [if_neg hk] at hkv
        exact hinv k v hkv
  | create caller ot tp amt tok now bump =>
    cases hv : s.vaults caller with
    | none =>
      simp [applyOp, stepOp, hv] at hkv
      exact hinv k v hkv
    | some w =>
      by_cases hone : w.owner = caller
      · cases hfree : s.orders (caller, w.order_count) with
        | some o2 =>
          simp [applyOp, stepOp, hv, hone, hfree] at hkv
          exact hinv k v hkv
        | none =>
          by_cases hlt : w.order_count + 1 < 2 ^ 64
          · simp only [applyOp, stepOp, hv, if_pos hone, hfree, create_order,
              u64CheckedAdd_some _ _ hlt, setVault_vaults] at hkv
            by_cases hk : k = caller
            · simp only [if_pos hk] at hkv
              injection hkv with hkv
              subst hkv
              simp [hone, hk]
            · simp only [if_neg hk] at hkv
              exact hinv k v hkv
          · simp only [applyOp, stepOp, hv, if_pos hone, hfree, create_order,
              u64CheckedAdd_none _ _ hlt] at hkv
            exact hinv k v hkv
      · simp [applyOp, stepOp, hv, hone] at hkv
        exact hinv k v hkv
  | execute ex loc2 now =>
    cases ho2 : s.orders loc2 with
    | none =>
      simp [applyOp, stepOp, ho2] at hkv
      exact hinv k v hkv
    | some o2 =>
      by_cases hseeds : (o2.vault, o2.order_id) = loc2
      · by_cases hact : o2.status = OrderStatus.Active
        · simp only [applyOp, stepOp, ho2, if_pos hseeds, execute_order,
            if_pos hact, setOrder_vaults] at hkv
          exact hinv k v hkv
        · simp only [applyOp, stepOp, ho2, if_pos hseeds, execute_order,
            if_neg hact] at hkv
          exact hinv k v hkv
      · simp [applyOp, stepOp, ho2, hseeds] at hkv
        exact hinv k v hkv
  | cancel caller loc2 =>
    cases ho2 : s.orders loc2 with
    | none =>
      simp [applyOp, stepOp, ho2] at hkv
      exact hinv k v hkv
    | some o2 =>
      by_cases hseeds : (o2.vault, o2.order_id) = loc2
      · by_cases hone : o2.owner = caller
        · by_cases hact : o2.status = OrderStatus.Active
          · simp only [applyOp, stepOp, ho2, if_pos hseeds, if_pos hone,
              cancel_order, if_pos hact, setOrder_vaults] at hkv
            exact hinv k v hkv
          · simp only [applyOp, stepOp, ho2, if_pos hseeds, if_pos hone,
              cancel_order, if_neg hact] at hkv
            exact hinv k v hkv
        · simp [applyOp, stepOp, ho2, hseeds, hone] at hkv
          exact hinv k v hkv
      · simp [applyOp, stepOp, ho2, hseeds] at hkv
        exact hinv k v hkv

/-- Every stored vault sits at its owner's derived address, through any
sequence of transactions: at most one vault per owner can ever exist. -/
lemma vault_owner_run (ops : List Op) (s : Chain)
    (hinv : ∀ k v, s.vaults k = some v → v.owner = k) :
    ∀ k v, (runOps ops s).vaults k = some v → v.owner = k := by
  induction ops generalizing s with
  | nil => exact hinv
  | cons op ops ih => exact ih _ (vault_owner_step op s hinv)

/-- Invariant of one vault after `k` successful order creations: the vault
account records `order_count = k`, the order slots `0, …, k-1` are filled with
orders whose `order_id` equals their slot index, and every slot from `k` on is
still unoccupied. -/
def VaultInv (s : Chain) (owner : Pubkey) (k : Nat) : Prop :=
  (∃ v, s.vaults owner = some v ∧ v.owner = owner ∧ v.order_count = k) ∧
  (∀ i, i < k → ∃ o, s.orders (owner, i) = some o ∧ o.order_id = i) ∧
  (∀ i, k ≤ i → s.orders (owner, i) = none)

/-- One successful `create_order` call moves the vault invariant from `k` to
`k + 1`: the fresh order gets `order_id = k` (the counter value at the moment
of creation) and the counter advances to `k + 1`. -/
lemma vaultInv_step (owner tok : Pubkey) (ot : OrderType) (tp amt : Nat)
    (now : Int) (bump : Nat) (s : Chain) (k : Nat) (hinv : VaultInv s owner k)
    (hlt : k + 1 < 2 ^ 64) :
    ∃ s2, stepOp (Op.create owner ot tp amt tok now bump) s = Except.ok s2 ∧
      VaultInv s2 owner (k + 1) := by
  obtain ⟨⟨v, hv, hone, hcnt⟩, hfill, hfree⟩ := hinv
  subst hcnt
  have hfree0 : s.orders (owner, v.order_count) = none := hfree _ (le_refl _)
  have hstep : stepOp (Op.create owner ot tp amt tok now bump) s =
      Except.ok (setVault (setOrder s (owner, v.order_count)
        { vault := owner, owner := owner, order_id := v.order_count,
          order_type := ot, trigger_price := tp, amount := amt,
          token_mint := tok, status := OrderStatus.Active, created_at := now,
          executed_at := none, bump := bump })
        owner { v with order_count := v.order_count + 1 }) := by
    simp only [stepOp, hv, if_pos hone, hfree0, create_order,
      u64CheckedAdd_some _ _ hlt]
  refine ⟨_, hstep, ?_, ?_, ?_⟩
  · refine ⟨{ v with order_count := v.order_count + 1 }, by simp, hone, rfl⟩
  · intro i hi
    rcases Nat.lt_succ_iff_lt_or_eq.mp hi with hi2 | hi2
    · obtain ⟨o, ho, hid⟩ := hfill i hi2
      have hne : ((owner, i) : Pubkey × Nat) ≠ (owner, v.order_count) := by
        intro hp
        injection hp with hp1 hp2
        omega
      exact ⟨o, by simp [hne, ho], hid⟩
    · subst hi2
      exact ⟨{ vault := owner, owner := owner, order_id := v.order_count,
               order_type := ot, trigger_price := tp, amount := amt,
               token_mint := tok, status := OrderStatus.Active,
               created_at := now, executed_at := none, bump := bump },
             by simp, rfl⟩
  · intro i hi
    have hne : ((owner, i) : Pubkey × Nat) ≠ (owner, v.order_count) := by
      intro hp
      injection hp with hp1 hp2
      omega
    have := hfree i (by omega)
    simp [hne, this]

/-- `m` further successful creations extend the invariant from `k` to `k + m`,
as long as the counter never reaches the `u64` boundary. -/
lemma createN_inv (owner tok : Pubkey) (ot : OrderType) (tp amt : Nat)
    (now : Int) (bump : Nat) (m : Nat) (s : Chain) (k : Nat)
    (hinv : VaultInv s owner k) (hm : k + m < 2 ^ 64) :
    ∃ s2, createN owner ot tp amt tok now bump m s = Except.ok s2 ∧
      VaultInv s2 owner (k + m) := by
  induction m generalizing s k with
  | zero => exact ⟨s, rfl, hinv⟩
  | succ m ih =>
    obtain ⟨s1, hstep, hinv1⟩ :=
      vaultInv_step owner tok ot tp amt now bump s k hinv (by omega)
    obtain ⟨s2, hrun, hinv2⟩ := ih s1 (k + 1) hinv1 (by omega)
    refine ⟨s2, ?_, ?_⟩
    · simp only [createN, hstep]
      exact hrun
    · have : k + 1 + m = k + (m + 1) := by omega
      rwa [this] at hinv2

/-- C3 (amended): when the counter increment would overflow, `create_order`
aborts — via the `checked_add(1).unwrap()` panic, so the counter never wraps
and storage is left untouched — though the failure is the panic, not the
program's declared `Overflow` error code; every successful `create_order`
advances `order_count` by exactly 1, and no transaction whatsoever ever
lowers any vault's counter. -/
theorem create_order_checked_counter (caller tok : Pubkey) (ot : OrderType)
    (tp amt : Nat) (now : Int) (bump : Nat) (s : Chain) (v : Vault)
    (hv : s.vaults caller = some v) (hone : v.owner = caller)
    (hfree : s.orders (caller, v.order_count) = none) :
    (¬ v.order_count + 1 < 2 ^ 64 →
      stepOp (Op.create caller ot tp amt tok now bump) s =
        Except.error TxError.Panicked ∧
      applyOp (Op.create caller ot tp amt tok now bump) s = s) ∧
    (∀ s2, stepOp (Op.create caller ot tp amt tok now bump) s = Except.ok s2 →
      s2.vaults caller = some { v with order_count := v.order_count + 1 }) ∧
    (∀ op s1 s2 k w, stepOp op s1 = Except.ok s2 → s1.vaults k = some w →
      ∃ w2, s2.vaults k = some w2 ∧ w.order_count ≤ w2.order_count) := by
  refine ⟨?_, ?_, ?_⟩
  · intro hge
    have hstep : stepOp (Op.create caller ot tp amt tok now bump) s =
        Except.error TxError.Panicked := by
      simp only [stepOp, hv, if_pos hone, hfree, create_order,
        u64CheckedAdd_none _ _ hge]
    exact ⟨hstep, by simp [applyOp, hstep]⟩
  · intro s2 h2
    by_cases hlt : v.order_count + 1 < 2 ^ 64
    · have hstep : stepOp (Op.create caller ot tp amt tok now bump) s =
          Except.ok (setVault (setOrder s (caller, v.order_count)
            { vault := caller, owner := caller, order_id := v.order_count,
              order_type := ot, trigger_price := tp, amount := amt,
              token_mint := tok, status := OrderStatus.Active,
              created_at := now, executed_at := none, bump := bump })
            caller { v with order_count := v.order_count + 1 }) := by
        simp only [stepOp, hv, if_pos hone, hfree, create_order,
          u64CheckedAdd_some _ _ hlt]
      rw [hstep] at h2
      injection h2 with h2
      subst h2
      simp
    · have hstep : stepOp (Op.create caller ot tp amt tok now bump) s =
          Except.error TxError.Panicked := by
        simp only [stepOp, hv, if_pos hone, hfree, create_order,
          u64CheckedAdd_none _ _ hlt]
      rw [hstep] at h2
      cases h2
  · intro op s1 s2 k w h hw
    exact vault_count_mono op s1 s2 h k w hw

/-- Witness for C3 at the concrete boundary: a vault whose counter is the
largest `u64` makes `create_order` abort by panic and leave storage as it
was. -/
theorem create_order_checked_counter_witness :
    stepOp (Op.create 1 OrderType.StopLoss 100 5 2 3 254) chainVMax =
      Except.error TxError.Panicked ∧
    applyOp (Op.create 1 OrderType.StopLoss 100 5 2 3 254) chainVMax =
      chainVMax :=
  (create_order_checked_counter 1 2 OrderType.StopLoss 100 5 3 254 chainVMax
    { owner := 1, bump := 255, order_count := 2 ^ 64 - 1, created_at := 0 }
    rfl rfl rfl).1 ((by omega : ¬ (2 ^ 64 - 1 + 1 < 2 ^ 64)))

/-- C4: starting from a freshly initialized vault, `n` serial successful
`create_order` calls fill the order slots `0, …, n-1` with orders whose
`order_id` equals their slot index (no gaps, no repeats), leave every later
slot unoccupied, and leave the counter at `n`. -/
theorem order_ids_exactly_range (owner tok : Pubkey) (ot : OrderType)
    (tp amt : Nat) (now0 now : Int) (bump0 bump : Nat) (n : Nat)
    (hn : n < 2 ^ 64) :
    ∃ s, createN owner ot tp amt tok now bump n
        (applyOp (Op.initVault owner now0 bump0) emptyChain) = Except.ok s ∧
      (∀ i, i < n → ∃ o, s.orders (owner, i) = some o ∧ o.order_id = i) ∧
      (∀ i, n ≤ i → s.orders (owner, i) = none) ∧
      (∃ v, s.vaults owner = some v ∧ v.order_count = n) := by
  have h0 : VaultInv (applyOp (Op.initVault owner now0 bump0) emptyChain) owner 0 := by
    refine ⟨⟨initialize_vault owner now0 bump0, ?_, rfl, rfl⟩, ?_, ?_⟩
    · simp [applyOp, stepOp, emptyChain]
    · intro i hi
      omega
    · intro i _
      simp [applyOp, stepOp, emptyChain, setVault]
  obtain ⟨s, hrun, ⟨v, hv, hone, hcnt⟩, hfill, hfree⟩ :=
    createN_inv owner tok ot tp amt now bump n
      (applyOp (Op.initVault owner now0 bump0) emptyChain) 0 h0 (by omega)
  rw [Nat.zero_add] at hcnt hfill hfree
  exact ⟨s, hrun, hfill, hfree, v, hv, hcnt⟩

/-- Witness for C4 at `n = 3`: three creations yield ids 0, 1, 2. -/
theorem order_ids_exactly_range_witness :
    ∃ s, createN 1 OrderType.StopLoss 100 5 2 0 254 3
        (applyOp (Op.initVault 1 0 255) emptyChain) = Except.ok s ∧
      (∀ i, i < 3 → ∃ o, s.orders (1, i) = some o ∧ o.order_id = i) ∧
      (∀ i, 3 ≤ i → s.orders (1, i) = none) ∧
      (∃ v, s.vaults 1 = some v ∧ v.order_count = 3) :=
  order_ids_exactly_range 1 2 OrderType.StopLoss 100 5 0 0 255 254 3 (by omega)

/-- C5: an order in a terminal status (Executed, Cancelled, or Expired) makes
both handlers fail with `OrderNotActive`; no `execute` or `cancel`
transaction on it can succeed for any caller, and it persists unchanged
through every sequence of transactions — in particular nothing ever returns
it to `Active`. -/
theorem terminal_order_rejects_and_persists (o : Order)
    (hterm : o.status ≠ OrderStatus.Active) :
    (∀ now, execute_order now o = Except.error SentinelError.OrderNotActive) ∧
    cancel_order o = Except.error SentinelError.OrderNotActive ∧
    (∀ ex loc now s s2, stepOp (Op.execute ex loc now) s = Except.ok s2 →
      s.orders loc ≠ some o) ∧
    (∀ caller loc s s2, stepOp (Op.cancel caller loc) s = Except.ok s2 →
      s.orders loc ≠ some o) ∧
    (∀ s loc ops, s.orders loc = some o → (runOps ops s).orders loc = some o) := by
  refine ⟨?_, ?_, ?_, ?_, ?_⟩
  · intro now
    simp only [execute_order, if_neg hterm]
  · simp only [cancel_order, if_neg hterm]
  · intro ex loc now s s2 h hmem
    simp only [stepOp, hmem] at h
    by_cases hseeds : (o.vault, o.order_id) = loc
    · simp only [if_pos hseeds, execute_order, if_neg hterm] at h
      cases h
    · simp only [if_neg hseeds] at h
      cases h
  · intro caller loc s s2 h hmem
    simp only [stepOp, hmem] at h
    by_cases hseeds : (o.vault, o.order_id) = loc
    · by_cases hone : o.owner = caller
      · simp only [if_pos hseeds, if_pos hone, cancel_order, if_neg hterm] at h
        cases h
      · simp only [if_pos hseeds, if_neg hone] at h
        cases h
    · simp only [if_neg hseeds] at h
      cases h
  · intro s loc ops hmem
    exact terminal_persists_run ops s loc o hmem hterm

/-- An already-executed concrete order, for the C5 witness. -/
def executedSample : Order :=
  { sampleStopLoss with status := OrderStatus.Executed, executed_at := some 7 }

/-- Witness for C5: both handlers reject the executed concrete order, and it
survives a further execute-then-cancel sequence unchanged. -/
theorem terminal_order_rejects_and_persists_witness :
    execute_order 9 executedSample = Except.error SentinelError.OrderNotActive ∧
    cancel_order executedSample = Except.error SentinelError.OrderNotActive ∧
    (runOps [Op.execute 3 (1, 0) 9, Op.cancel 1 (1, 0)]
        (setOrder chainV0 (1, 0) executedSample)).orders (1, 0) =
      some executedSample :=
  ⟨(terminal_order_rejects_and_persists executedSample (by decide)).1 9,
   (terminal_order_rejects_and_persists executedSample (by decide)).2.1,
   (terminal_order_rejects_and_persists executedSample (by decide)).2.2.2.2
     (setOrder chainV0 (1, 0) executedSample) (1, 0)
     [Op.execute 3 (1, 0) 9, Op.cancel 1 (1, 0)] rfl⟩

/-- A chain holding the vault of owner 1 and their Active StopLoss order at
slot `(1, 0)`. -/
def chainO : Chain := setOrder chainV0 (1, 0) sampleStopLoss

/-- C6 counterexample: a cancel attempt by pubkey 2 on the order owned by
pubkey 1 fails with the `has_one` ownership-constraint violation raised by
the account-validation layer — not with the program's declared
`Unauthorized` error code, which is never raised anywhere. -/
theorem cancel_by_non_owner_fails_has_one_violation :
    stepOp (Op.cancel 2 (1, 0)) chainO = Except.error TxError.hasOneViolation ∧
    TxError.hasOneViolation ≠ TxError.program SentinelError.Unauthorized := by
  exact ⟨rfl, by decide⟩

/-- C6 (amended): a cancel by any identity other than `order.owner` fails with
the `has_one` ownership-constraint violation (the authorization failure of
the account-validation layer, raised before the handler body runs and hence
regardless of the order's status), and leaves storage untouched; a cancel by
the owner of an Active order succeeds and sets the status to `Cancelled`. -/
theorem cancel_order_ownership_gate (s : Chain) (caller : Pubkey)
    (loc : Pubkey × Nat) (o : Order) (ho : s.orders loc = some o)
    (hseeds : (o.vault, o.order_id) = loc) :
    (o.owner ≠ caller →
      stepOp (Op.cancel caller loc) s = Except.error TxError.hasOneViolation ∧
      applyOp (Op.cancel caller loc) s = s) ∧
    (o.owner = caller → o.status = OrderStatus.Active →
      stepOp (Op.cancel caller loc) s =
        Except.ok (setOrder s loc { o with status := OrderStatus.Cancelled })) := by
  constructor
  · intro hne
    have hstep : stepOp (Op.cancel caller loc) s =
        Except.error TxError.hasOneViolation := by
      simp only [stepOp, ho, if_pos hseeds, if_neg hne]
    exact ⟨hstep, by simp [applyOp, hstep]⟩
  · intro hone hact
    simp only [stepOp, ho, if_pos hseeds, if_pos hone, cancel_order,
      if_pos hact]

/-- Witness for C6: on the concrete chain, the non-owner's cancel fails with
the ownership violation and changes nothing, while the owner's cancel marks
the order `Cancelled`. -/
theorem cancel_order_ownership_gate_witness :
    (stepOp (Op.cancel 2 (1, 0)) chainO = Except.error TxError.hasOneViolation ∧
      applyOp (Op.cancel 2 (1, 0)) chainO = chainO) ∧
    stepOp (Op.cancel 1 (1, 0)) chainO =
      Except.ok (setOrder chainO (1, 0)
        { sampleStopLoss with status := OrderStatus.Cancelled }) :=
  ⟨(cancel_order_ownership_gate chainO 2 (1, 0) sampleStopLoss rfl rfl).1
      (by decide),
   (cancel_order_ownership_gate chainO 1 (1, 0) sampleStopLoss rfl rfl).2
      rfl rfl⟩

/-- C7: `initialize_vault` at an unoccupied owner-derived location creates the
vault with `owner = caller`, `order_count = 0`, `created_at = now`; at an
occupied location it fails with the already-exists collision.  Moreover every
vault reachable by any sequence of operations sits at its own owner's derived
address, so at most one vault exists per owner identity. -/
theorem initialize_vault_unique_per_owner (owner : Pubkey) (now : Int)
    (bump : Nat) (s : Chain) :
    (s.vaults owner = none →
      stepOp (Op.initVault owner now bump) s =
        Except.ok (setVault s owner
          { owner := owner, bump := bump, order_count := 0,
            created_at := now })) ∧
    (∀ v, s.vaults owner = some v →
      stepOp (Op.initVault owner now bump) s =
        Except.error TxError.AlreadyExists) ∧
    (∀ ops k v, (runOps ops emptyChain).vaults k = some v → v.owner = k) := by
  refine ⟨?_, ?_, ?_⟩
  · intro h
    simp only [stepOp, h]
    rfl
  · intro v h
    simp only [stepOp, h]
  · intro ops k v h
    exact vault_owner_run ops emptyChain
      (fun k v hkv => by simp [emptyChain] at hkv) k v h

/-- Witness for C7: the first initialization for owner 1 succeeds with the
expected record; a second initialization for the same owner fails. -/
theorem initialize_vault_unique_per_owner_witness :
    stepOp (Op.initVault 1 5 255) emptyChain =
      Except.ok (setVault emptyChain 1
        { owner := 1, bump := 255, order_count := 0, created_at := 5 }) ∧
    stepOp (Op.initVault 1 6 254)
        (setVault emptyChain 1
          { owner := 1, bump := 255, order_count := 0, created_at := 5 }) =
      Except.error TxError.AlreadyExists :=
  ⟨(initialize_vault_unique_per_owner 1 5 255 emptyChain).1 rfl,
   (initialize_vault_unique_per_owner 1 6 254
      (setVault emptyChain 1
        { owner := 1, bump := 255, order_count := 0, created_at := 5 })).2.1
      { owner := 1, bump := 255, order_count := 0, created_at := 5 } rfl⟩

/-- C8: every instruction is all-or-nothing: whenever a transaction fails,
the observable storage after it — every vault and every order — is exactly
the storage before it (the runtime commits account mutations only for a
succeeding transaction, so no partially-applied transition is observable). -/
theorem operations_all_or_nothing (op : Op) (s : Chain) (e : TxError)
    (h : stepOp op s = Except.error e) :
    (∀ k, (applyOp op s).vaults k = s.vaults k) ∧
    (∀ l, (applyOp op s).orders l = s.orders l) := by
  simp [applyOp, h]

/-- Witness for C8: executing a nonexistent order fails and observably
changes no account. -/
theorem operations_all_or_nothing_witness :
    (∀ k, (applyOp (Op.execute 3 (1, 0) 0) emptyChain).vaults k =
      emptyChain.vaults k) ∧
    (∀ l, (applyOp (Op.execute 3 (1, 0) 0) emptyChain).orders l =
      emptyChain.orders l) :=
  operations_all_or_nothing (Op.execute 3 (1, 0) 0) emptyChain
    TxError.accountNotFound rfl

/-- C9: the `Expired` status is unreachable: no instruction ever writes it,
so every order stored after any sequence of operations from an empty chain is
Active, Executed, or Cancelled. -/
theorem expired_status_unreachable (ops : List Op) (loc : Pubkey × Nat)
    (o : Order) (h : (runOps ops emptyChain).orders loc = some o) :
    o.status = OrderStatus.Active ∨ o.status = OrderStatus.Executed ∨
      o.status = OrderStatus.Cancelled := by
  have hne := no_expired_run ops emptyChain
    (fun l o2 hlo => by simp [emptyChain] at hlo) loc o h
  cases hst : o.status with
  | Active => exact Or.inl rfl
  | Executed => exact Or.inr (Or.inl rfl)
  | Cancelled => exact Or.inr (Or.inr rfl)
  | Expired => exact absurd hst hne

/-- The order stored at slot `(1, 0)` after one initialization and one
creation, for the C9 witness. -/
def firstCreatedOrder : Order :=
  { vault := 1, owner := 1, order_id := 0, order_type := OrderType.StopLoss,
    trigger_price := 100, amount := 5, token_mint := 2,
    status := OrderStatus.Active, created_at := 0, executed_at := none,
    bump := 254 }

/-- Witness for C9 on a concrete run: initialize a vault, create one order,
then conclude that the stored order is not Expired. -/
theorem expired_status_unreachable_witness :
    firstCreatedOrder.status = OrderStatus.Active ∨
    firstCreatedOrder.status = OrderStatus.Executed ∨
    firstCreatedOrder.status = OrderStatus.Cancelled :=
  expired_status_unreachable
    [Op.initVault 1 0 255, Op.create 1 OrderType.StopLoss 100 5 2 0 254]
    (1, 0) firstCreatedOrder rfl

/-- C10: `create_order` validates neither `amount` nor `trigger_price`: for
the vault owner, with the derived slot free and the counter below the `u64`
boundary, a call with any `amount` — in particular `amount = 0` — succeeds
and stores an Active order carrying exactly that amount. -/
theorem create_order_ignores_amount (caller tok : Pubkey) (ot : OrderType)
    (tp : Nat) (now : Int) (bump : Nat) (s : Chain) (v : Vault)
    (hv : s.vaults caller = some v) (hone : v.owner = caller)
    (hfree : s.orders (caller, v.order_count) = none)
    (hlt : v.order_count + 1 < 2 ^ 64) :
    ∀ amt, ∃ s2,
      stepOp (Op.create caller ot tp amt tok now bump) s = Except.ok s2 ∧
      s2.orders (caller, v.order_count) =
        some { vault := caller, owner := caller, order_id := v.order_count,
               order_type := ot, trigger_price := tp, amount := amt,
               token_mint := tok, status := OrderStatus.Active,
               created_at := now, executed_at := none, bump := bump } := by
  intro amt
  have hstep : stepOp (Op.create caller ot tp amt tok now bump) s =
      Except.ok (setVault (setOrder s (caller, v.order_count)
        { vault := caller, owner := caller, order_id := v.order_count,
          order_type := ot, trigger_price := tp, amount := amt,
          token_mint := tok, status := OrderStatus.Active, created_at := now,
          executed_at := none, bump := bump })
        caller { v with order_count := v.order_count + 1 }) := by
    simp only [stepOp, hv, if_pos hone, hfree, create_order,
      u64CheckedAdd_some _ _ hlt]
  exact ⟨_, hstep, by simp⟩

/-- Witness for C10: a zero-amount order is created exactly like any other. -/
theorem create_order_ignores_amount_witness :
    ∃ s2,
      stepOp (Op.create 1 OrderType.TakeProfit 100 0 2 3 254) chainV0 =
        Except.ok s2 ∧
      s2.orders (1, 0) =
        some { vault := 1, owner := 1, order_id := 0,
               order_type := OrderType.TakeProfit, trigger_price := 100,
               amount := 0, token_mint := 2, status := OrderStatus.Active,
               created_at := 3, executed_at := none, bump := 254 } :=
  create_order_ignores_amount 1 2 OrderType.TakeProfit 100 3 254 chainV0
    (initialize_vault 1 0 255) rfl rfl rfl ((by omega : (0 : Nat) + 1 < 2 ^ 64)) 0
